import Mathlib

/-!
Verification of the crop-disease-detection prediction pipeline.

The definitions below are a shallow embedding of the Python sources:
`app/core/model.py` (ModelManager), `app/core/predictor.py`
(DiseasePredictor), `app/utils/image_utils.py` (ImageProcessor) and the
batch route of `app/api/routes.py`.  Probabilities (Python floats) are
modelled as rationals, numpy arrays as lists, Python exceptions as
`Except String`, and the externally supplied model artefacts (Keras
model / TFLite interpreter) as optional functions from an abstract image
type to a probability vector.  Presentation-only fields of the result
dictionaries (ISO timestamps and the "%.2f%%" formatted copies of the
confidences) are omitted; every field with behavioural content is kept.
-/

instance {ε α : Type} [DecidableEq ε] [DecidableEq α] : DecidableEq (Except ε α) :=
  fun a b =>
    match a, b with
    | .ok x, .ok y =>
      if h : x = y then .isTrue (by rw [h]) else .isFalse (by intro hc; cases hc; exact h rfl)
    | .error x, .error y =>
      if h : x = y then .isTrue (by rw [h]) else .isFalse (by intro hc; cases hc; exact h rfl)
    | .ok _, .error _ => .isFalse (by intro hc; cases hc)
    | .error _, .ok _ => .isFalse (by intro hc; cases hc)

namespace CropDisease

/-! ### Data model -/

/-- One entry of the ranked prediction list built by
`DiseasePredictor._get_top_predictions`: the dict
`{"class": ..., "class_index": ..., "confidence": ...}` (the formatted
percentage string, a pure display copy of `confidence`, is omitted). -/
structure TopPrediction where
  className : String
  classIndex : ℕ
  confidence : ℚ
  deriving DecidableEq, Repr

/-- The `primary_prediction` sub-dictionary of a prediction result. -/
structure PrimarySummary where
  disease : String
  confidence : ℚ
  severity : String
  deriving DecidableEq, Repr

/-- Result of `DiseasePredictor._get_disease_information`: either a record
found in the disease database (of abstract record type `Rec`), or the
fallback dictionary built inline when the key is absent.  The fields of
`fallback` are, in order: name, crop, type, message, recommendation. -/
inductive DiseaseInformation (Rec : Type) where
  | found (info : Rec)
  | fallback (name crop category message recommendation : String)
  deriving DecidableEq

/-- The dictionary returned by `DiseasePredictor.predict` (timestamp and
formatted percentages omitted, see the file header). -/
structure PredictionResult (Rec : Type) where
  success : Bool
  model_used : String
  primary_prediction : PrimarySummary
  alternative_predictions : List TopPrediction
  disease_information : DiseaseInformation Rec
  deriving DecidableEq

/-- One element of the list returned by `DiseasePredictor.predict_batch`:
either a successful per-item result with its `image_index` tag, or the
failure dictionary `{"success": False, "image_index": idx, "error": e}`. -/
inductive BatchEntry (Rec : Type) where
  | item (result : PredictionResult Rec) (image_index : ℕ)
  | failureRecord (image_index : ℕ) (error : String)
  deriving DecidableEq

/-- The original input position recorded in a batch entry. -/
def batchEntryIndex {Rec : Type} : BatchEntry Rec → ℕ
  | .item _ i => i
  | .failureRecord i _ => i

/-- The `success` flag of a batch entry. -/
def batchEntrySuccess {Rec : Type} : BatchEntry Rec → Bool
  | .item _ _ => true
  | .failureRecord _ _ => false

/-! ### ModelManager (`app/core/model.py`) -/

/-- State of `ModelManager` after `__init__`: the two independently
optional model variants (each modelled as a pure function from the image
type to a probability vector; `none` when loading failed or the artefact
was absent) and the class-label table. -/
structure ModelManager (Img : Type) where
  kerasModel : Option (Img → List ℚ)
  tfliteInterpreter : Option (Img → List ℚ)
  classLabels : List String

variable {Img Rec Raw : Type}

/-- `ModelManager.is_ready`: at least one variant loaded and the label
table non-empty. -/
def is_ready (mm : ModelManager Img) : Bool :=
  (mm.kerasModel.isSome || mm.tfliteInterpreter.isSome) &&
    decide (0 < mm.classLabels.length)

/-- `ModelManager.get_class_label`: in-range indices resolve through the
table, out-of-range ones to a synthetic placeholder.  Indices reaching
this function come from `numpy.argsort` over the probability vector and
are therefore natural numbers, so the Python lower bound `0 <= index` is
carried by the type. -/
def get_class_label (mm : ModelManager Img) (index : ℕ) : String :=
  if index < mm.classLabels.length then
    mm.classLabels.getD index ("")
  else
    "unknown_class_" ++ toString index

/-- `ModelManager.predict_keras`: raises when the Keras variant is not
loaded, otherwise returns the model output for the input tensor. -/
def predict_keras (mm : ModelManager Img) (image_array : Img) : Except String (List ℚ) :=
  match mm.kerasModel with
  | none => .error ("Keras model not loaded")
  | some f => .ok (f image_array)

/-- `ModelManager.predict_tflite`: raises when the TFLite variant is not
loaded, otherwise returns the interpreter output for the input tensor. -/
def predict_tflite (mm : ModelManager Img) (image_array : Img) : Except String (List ℚ) :=
  match mm.tfliteInterpreter with
  | none => .error ("TFLite model not loaded")
  | some f => .ok (f image_array)

/-! ### String helpers used by the predictor -/

/-- ASCII fragment of Python `str.lower` (class labels are ASCII). -/
def pyLower (c : Char) : Char :=
  if 65 ≤ c.toNat ∧ c.toNat ≤ 90 then Char.ofNat (c.toNat + 32) else c

/-- ASCII fragment of Python `str.upper` on a single character (used by
`str.capitalize` for the first character). -/
def pyUpper (c : Char) : Char :=
  if 97 ≤ c.toNat ∧ c.toNat ≤ 122 then Char.ofNat (c.toNat - 32) else c

/-- Python `str.lower` over a whole string. -/
def pyLowerStr (s : String) : String :=
  String.mk (s.data.map pyLower)

/-- Python `str.capitalize` on the character list: first character
upper-cased, all remaining characters lower-cased. -/
def pyCapitalizeL : List Char → List Char
  | [] => []
  | c :: rest => pyUpper c :: rest.map pyLower

/-- Python `str.capitalize`. -/
def pyCapitalize (s : String) : String :=
  String.mk (pyCapitalizeL s.data)

/-- Python `pat in s` substring test: does `l` start with `pat`? -/
def listStartsWith : List Char → List Char → Bool
  | [], _ => true
  | _ :: _, [] => false
  | p :: ps, c :: cs => p = c && listStartsWith ps cs

/-- Python `pat in s` substring test over character lists. -/
def containsSub (pat : List Char) : List Char → Bool
  | [] => listStartsWith pat []
  | c :: rest => listStartsWith pat (c :: rest) || containsSub pat rest

/-- One pass of Python `s.replace("__", "_")`: scan left to right,
replacing each non-overlapping occurrence of two underscores by one. -/
def replaceDD : List Char → List Char
  | [] => []
  | [c] => [c]
  | a :: b :: rest =>
    if a = '_' ∧ b = '_' then '_' :: replaceDD rest
    else a :: replaceDD (b :: rest)

/-- Python `"__" in s`. -/
def containsDD : List Char → Bool
  | [] => false
  | [_] => false
  | a :: b :: rest => (a = '_' && b = '_') || containsDD (b :: rest)

/-- The `while "__" in normalized: normalized = normalized.replace("__", "_")`
loop of `_normalize_disease_key`.  Each iteration strictly shortens the
list, so `l.length` units of fuel always reach the loop's fixpoint; the
fuel only renders the terminating Python loop structurally recursive. -/
def collapseLoop : ℕ → List Char → List Char
  | 0, l => l
  | Nat.succ fuel, l => if containsDD l then collapseLoop fuel (replaceDD l) else l

/-- Python `s.strip("_")`: remove all leading and trailing underscores. -/
def pyStrip (l : List Char) : List Char :=
  ((l.dropWhile (fun c => c = '_')).reverse.dropWhile (fun c => c = '_')).reverse

/-- `DiseasePredictor._normalize_disease_key`: lowercase, collapse runs of
underscores by repeated replacement until no `"__"` remains, then strip
leading/trailing underscores. -/
def normalize_disease_key (class_name : String) : String :=
  String.mk (pyStrip (collapseLoop (class_name.data.map pyLower).length
    (class_name.data.map pyLower)))

/-- Python `class_name.split("_")`: splits on every underscore, keeping
empty segments; the result always has at least one segment. -/
def splitOnUnderscore : List Char → List (List Char)
  | [] => [[]]
  | c :: rest =>
    if c = '_' then [] :: splitOnUnderscore rest
    else
      match splitOnUnderscore rest with
      | [] => [[c]]
      | seg :: segs => (c :: seg) :: segs

/-- The body of `DiseasePredictor._extract_crop_name` after the split:
`if parts: return parts[0].capitalize()` and `return "Unknown"` when the
segment list is empty. -/
def extractFromParts : List (List Char) → String
  | [] => "Unknown"
  | p :: _ => String.mk (pyCapitalizeL p)

/-- `DiseasePredictor._extract_crop_name`. -/
def extract_crop_name (class_name : String) : String :=
  extractFromParts (splitOnUnderscore class_name.data)

/-! ### DiseasePredictor (`app/core/predictor.py`) -/

/-- State of `DiseasePredictor`: the model manager plus the disease
database, the latter modelled as its `get_disease_info` lookup
(`dict.get`: key to optional record). -/
structure DiseasePredictor (Img Rec : Type) where
  modelManager : ModelManager Img
  diseaseDb : String → Option Rec

/-- `numpy.argsort(predictions)`: the indices `0 .. len-1` sorted so that
the corresponding values are in ascending order (tie order among equal
values is unspecified in the reference behaviour). -/
def argsort (l : List ℚ) : List ℕ :=
  @List.insertionSort ℕ (fun i j => l.getD i 0 ≤ l.getD j 0)
    (fun i j => inferInstanceAs (Decidable (l.getD i 0 ≤ l.getD j 0)))
    (List.range l.length)

/-- Python list slice `l[start:]` with an arbitrary (possibly negative)
integer start, as produced by `[-top_k:]` in the source. -/
def pySliceFrom (start : ℤ) (l : List α) : List α :=
  if 0 ≤ start then l.drop start.toNat
  else l.drop ((l.length : ℤ) + start).toNat

/-- `DiseasePredictor._get_top_predictions`:
`top_k = min(top_k, len(predictions))`, then
`np.argsort(predictions)[-top_k:][::-1]`, then build one entry per
selected index. -/
def get_top_predictions (mm : ModelManager Img) (predictions : List ℚ)
    (top_k : ℤ) : List TopPrediction :=
  let topK := min top_k (predictions.length : ℤ)
  let topIndices := (pySliceFrom (-topK) (argsort predictions)).reverse
  topIndices.map (fun idx =>
    { className := get_class_label mm idx
      classIndex := idx
      confidence := predictions.getD idx 0 })

/-- `DiseasePredictor._assess_severity` (confidence thresholds 0.5, 0.7
and 0.85 as rationals). -/
def assess_severity (confidence : ℚ) : String :=
  if confidence < mkRat 1 2 then "uncertain"
  else if confidence < mkRat 7 10 then "mild"
  else if confidence < mkRat 17 20 then "moderate"
  else "severe"

/-- `DiseasePredictor._get_disease_information`: look the normalized key
up in the database, falling back to the inline record when absent. -/
def get_disease_information (db : String → Option Rec) (class_name : String) :
    DiseaseInformation Rec :=
  match db (normalize_disease_key class_name) with
  | some info => .found info
  | none =>
    .fallback class_name (extract_crop_name class_name)
      (if containsSub ("healthy".data) ((pyLowerStr class_name).data)
        then "healthy" else "disease")
      ("Detailed information not available in database")
      ("Consult with agricultural expert for detailed diagnosis")

/-- `DiseasePredictor.predict`: backend dispatch
(`if use_tflite and tflite_interpreter: ... elif keras_model: ... else
raise`), ranking, severity, enrichment, and result assembly.  Accessing
`top_predictions[0]` on an empty ranking raises the Python `IndexError`
message. -/
def predict (p : DiseasePredictor Img Rec) (image_array : Img)
    (use_tflite : Bool) (top_k : ℤ) : Except String (PredictionResult Rec) :=
  match (if use_tflite && p.modelManager.tfliteInterpreter.isSome then
          predict_tflite p.modelManager image_array
        else if p.modelManager.kerasModel.isSome then
          predict_keras p.modelManager image_array
        else .error ("No model available for prediction")) with
  | .error e => .error e
  | .ok predictions =>
    match get_top_predictions p.modelManager predictions top_k with
    | [] => .error ("list index out of range")
    | primary :: rest =>
      .ok
        { success := true
          model_used := if use_tflite then "tflite" else "keras"
          primary_prediction :=
            { disease := primary.className
              confidence := primary.confidence
              severity := assess_severity primary.confidence }
          alternative_predictions := rest
          disease_information :=
            get_disease_information p.diseaseDb primary.className }

/-- `DiseasePredictor.predict_batch`: run `predict` with `top_k = 1` per
item, tagging each success with its enumeration index and converting a
per-item exception into a failure record with the same index. -/
def predict_batch (p : DiseasePredictor Img Rec) (image_arrays : List Img)
    (use_tflite : Bool) : List (BatchEntry Rec) :=
  image_arrays.enum.map (fun pair =>
    match predict p pair.2 use_tflite 1 with
    | .ok r => .item r pair.1
    | .error e => .failureRecord pair.1 e)

/-! ### Batch route (`app/api/routes.py`, `predict_batch` endpoint) -/

/-- The processing section of the `/api/predict/batch` route, after
request-schema validation has passed: preprocess each image, keeping only
the successfully preprocessed arrays (failures are logged and skipped),
reject the request when none survive, else run the core batch
prediction over the surviving arrays. -/
def route_predict_batch (p : DiseasePredictor Img Rec)
    (preprocess : Raw → Except String Img) (images : List Raw)
    (use_tflite : Bool) : Except String (List (BatchEntry Rec)) :=
  let image_arrays := images.filterMap (fun img => (preprocess img).toOption)
  if image_arrays.isEmpty then .error ("No valid images in batch")
  else .ok (predict_batch p image_arrays use_tflite)

/-! ### ImageProcessor (`app/utils/image_utils.py`) -/

/-- Raw image input: either a text-encoded (base64 / data-URI) string or
a bytes payload (bytes modelled as their numeric values). -/
inductive ImageData where
  | str (s : String)
  | bytes (b : List ℕ)

/-- External collaborators of `validate_image`: the base64 decoder and
`PIL.Image.open` followed by `verify`, both fallible.  They are opaque
libraries to this codebase, so they are abstract fields. -/
structure ImageEnv where
  b64decode : String → Except String (List ℕ)
  openVerify : List ℕ → Except String Unit

/-- `ImageProcessor` state: the configured maximum payload size. -/
structure ImageProcessor where
  maxSizeBytes : ℕ

/-- Everything after the first comma: Python `s.split(',', 1)[1]`. -/
def afterFirstComma (l : List Char) : List Char :=
  (l.dropWhile (fun c => !(c = ','))).drop 1

/-- The data-URI handling of `validate_image`: when the string contains a
comma, keep only what follows the first one. -/
def stripDataUriPrefix (s : String) : String :=
  if s.data.contains ',' then String.mk (afterFirstComma s.data) else s

/-- The decode step shared by the `ImageProcessor` methods: strings are
stripped of a data-URI prefix and base64-decoded (fallibly); bytes pass
through unchanged. -/
def decodePayload (env : ImageEnv) (d : ImageData) : Except String (List ℕ) :=
  match d with
  | .str s => env.b64decode (stripDataUriPrefix s)
  | .bytes b => .ok b

/-- The `try` body of `ImageProcessor.validate_image`: decode, return
`False` on oversize, then open-and-verify; an `error` value is a Python
exception escaping the body. -/
def validateBody (env : ImageEnv) (proc : ImageProcessor) (d : ImageData) :
    Except String Bool :=
  match decodePayload env d with
  | .error e => .error e
  | .ok bs =>
    if proc.maxSizeBytes < bs.length then .ok false
    else
      match env.openVerify bs with
      | .error e => .error e
      | .ok _ => .ok true

/-- `ImageProcessor.validate_image`: the body wrapped in the catch-all
`except` clause that converts any exception into `False`. -/
def validate_image (env : ImageEnv) (proc : ImageProcessor) (d : ImageData) :
    Bool :=
  match validateBody env proc d with
  | .ok b => b
  | .error _ => false

/-! ### Concrete instances used to exercise the definitions -/

/-- A two-class label table as shipped with the repository's label file. -/
def labelsDemo : List String := ["Tomato_Early_blight", "Tomato_healthy"]

/-- A loaded Keras variant producing a fixed probability vector. -/
def kerasDemoFn : ℕ → List ℚ := fun _ => [mkRat 9 10, mkRat 1 10]

/-- Predictor state after a startup in which the Keras variant loaded and
the TFLite variant did not, with an empty disease database. -/
def predFallback : DiseasePredictor ℕ Unit :=
  { modelManager :=
      { kerasModel := some kerasDemoFn
        tfliteInterpreter := none
        classLabels := labelsDemo }
    diseaseDb := fun _ => none }

/-- Predictor state after a startup in which no variant loaded. -/
def predNoModels : DiseasePredictor ℕ Unit :=
  { modelManager :=
      { kerasModel := none
        tfliteInterpreter := none
        classLabels := labelsDemo }
    diseaseDb := fun _ => none }

/-- A three-class model manager used to exercise the ranking function. -/
def mmRank : ModelManager Unit :=
  { kerasModel := none
    tfliteInterpreter := none
    classLabels := ["a", "b", "c"] }

/-- A model manager whose two variants both failed to load. -/
def mmNoModels : ModelManager Unit :=
  { kerasModel := none
    tfliteInterpreter := none
    classLabels := ["x"] }

/-- A model manager with a loaded variant but an empty label table. -/
def mmNoLabels : ModelManager Unit :=
  { kerasModel := some (fun _ => [1])
    tfliteInterpreter := none
    classLabels := [] }

/-- Preprocessing for the batch scenario: input 11 is the corrupt image
(preprocessing raises), the others decode to themselves. -/
def preBatchDemo : ℕ → Except String ℕ :=
  fun r => if r = 11 then .error ("Failed to process image") else .ok r

/-- Predictor used in the batch scenario: Keras loaded, TFLite absent. -/
def predBatchDemo : DiseasePredictor ℕ Unit :=
  { modelManager :=
      { kerasModel := some (fun _ => [mkRat 7 10, mkRat 3 10])
        tfliteInterpreter := none
        classLabels := labelsDemo }
    diseaseDb := fun _ => none }

/-- The result `predict` produces for `predFallback` with the compact
variant requested, spelled out. -/
def resultFallbackDemo : PredictionResult Unit :=
  { success := true
    model_used := "tflite"
    primary_prediction :=
      { disease := "Tomato_Early_blight"
        confidence := mkRat 9 10
        severity := "severe" }
    alternative_predictions := []
    disease_information :=
      .fallback ("Tomato_Early_blight") ("Tomato") ("disease")
        ("Detailed information not available in database")
        ("Consult with agricultural expert for detailed diagnosis") }

/-- An environment whose base64 decoder rejects every payload. -/
def envRejecting : ImageEnv :=
  { b64decode := fun _ => .error ("Invalid base64-encoded string")
    openVerify := fun _ => .ok () }

/-- An image processor configured with a 100-byte maximum. -/
def procDemo : ImageProcessor := { maxSizeBytes := 100 }

/-! ### Helper lemmas about the ranking function -/

theorem argsort_length (l : List ℚ) : (argsort l).length = l.length := by
  unfold argsort
  rw [List.length_insertionSort, List.length_range]

theorem argsort_perm (l : List ℚ) : (argsort l).Perm (List.range l.length) :=
  List.perm_insertionSort _ _

theorem argsort_sorted (l : List ℚ) :
    (argsort l).Pairwise (fun i j => l.getD i 0 ≤ l.getD j 0) := by
  haveI h1 : IsTotal ℕ (fun i j => l.getD i 0 ≤ l.getD j 0) :=
    ⟨fun i j => le_total _ _⟩
  haveI h2 : IsTrans ℕ (fun i j => l.getD i 0 ≤ l.getD j 0) :=
    ⟨fun a b c hab hbc => le_trans hab hbc⟩
  exact List.sorted_insertionSort _ _

theorem pySliceFrom_length (start : ℤ) (l : List α) :
    (pySliceFrom start l).length =
      if 0 ≤ start then l.length - start.toNat
      else l.length - ((l.length : ℤ) + start).toNat := by
  unfold pySliceFrom
  split <;> simp

theorem pySliceFrom_sublist (start : ℤ) (l : List α) :
    (pySliceFrom start l).Sublist l := by
  unfold pySliceFrom
  split <;> exact List.drop_sublist _ _

theorem get_top_predictions_length_core {Img : Type} (mm : ModelManager Img)
    (probs : List ℚ) (k : ℤ) :
    (get_top_predictions mm probs k).length =
      (pySliceFrom (-(min k (probs.length : ℤ))) (argsort probs)).length := by
  unfold get_top_predictions
  rw [List.length_map, List.length_reverse]

theorem get_top_predictions_length {Img : Type} (mm : ModelManager Img)
    (probs : List ℚ) (k : ℤ) (hk : 1 ≤ k) :
    (get_top_predictions mm probs k).length = (min k (probs.length : ℤ)).toNat := by
  rw [get_top_predictions_length_core, pySliceFrom_length, argsort_length]
  split <;> omega

theorem get_top_predictions_sorted {Img : Type} (mm : ModelManager Img)
    (probs : List ℚ) (k : ℤ) :
    List.Sorted (· ≥ ·)
      ((get_top_predictions mm probs k).map TopPrediction.confidence) := by
  unfold get_top_predictions
  rw [List.map_map]
  show List.Pairwise _ (List.map (fun idx => probs.getD idx 0) _)
  rw [List.pairwise_map, List.pairwise_reverse]
  exact List.Pairwise.sublist (pySliceFrom_sublist _ _) (argsort_sorted probs)

theorem sorted_getLast?_greatest {r : ℕ → ℕ → Prop} (hrefl : ∀ a, r a a) :
    ∀ (l : List ℕ), l.Pairwise r → ∀ j, l.getLast? = some j → ∀ i, i ∈ l → r i j := by
  intro l
  induction l with
  | nil => intro _ j hj; simp at hj
  | cons a t ih =>
    intro hp j hj i hi
    cases t with
    | nil =>
      simp at hj hi
      rw [hi, ← hj]
      exact hrefl a
    | cons b t2 =>
      have hj' : (b :: t2).getLast? = some j := by simpa using hj
      rcases List.mem_cons.mp hi with h1 | h2
      · rw [h1]
        exact (List.pairwise_cons.mp hp).1 j (List.mem_of_getLast?_eq_some hj')
      · exact ih (List.pairwise_cons.mp hp).2 j hj' i h2

theorem getLast?_drop_of_ne_nil (l : List α) (m : ℕ) (h : l.drop m ≠ []) :
    (l.drop m).getLast? = l.getLast? := by
  conv_rhs => rw [← List.take_append_drop m l]
  rw [List.getLast?_append]
  cases hd : (l.drop m).getLast? with
  | none => exact absurd (List.getLast?_eq_none_iff.mp hd) h
  | some a => rfl

theorem get_top_predictions_head {Img : Type} (mm : ModelManager Img)
    (probs : List ℚ) (k : ℤ) (p₀ : TopPrediction)
    (h : (get_top_predictions mm probs k).head? = some p₀) :
    p₀.confidence ∈ probs ∧ ∀ x ∈ probs, x ≤ p₀.confidence := by
  unfold get_top_predictions at h
  rw [List.head?_map, List.head?_reverse] at h
  obtain ⟨j, hj, hbuild⟩ : ∃ j, (pySliceFrom (-(min k (probs.length : ℤ)))
      (argsort probs)).getLast? = some j ∧
      p₀ = { className := get_class_label mm j, classIndex := j,
             confidence := probs.getD j 0 } := by
    cases hl : (pySliceFrom (-(min k (probs.length : ℤ))) (argsort probs)).getLast? with
    | none => rw [hl] at h; simp at h
    | some j =>
      rw [hl] at h
      exact ⟨j, rfl, by simpa using h.symm⟩
  have hslice : ∃ m, pySliceFrom (-(min k (probs.length : ℤ))) (argsort probs) =
      (argsort probs).drop m := by
    unfold pySliceFrom
    split
    · exact ⟨_, rfl⟩
    · exact ⟨_, rfl⟩
  obtain ⟨m, hm⟩ := hslice
  rw [hm] at hj
  have hne : (argsort probs).drop m ≠ [] := by
    intro hc
    rw [hc] at hj
    simp at hj
  rw [getLast?_drop_of_ne_nil _ _ hne] at hj
  have hjmem : j ∈ argsort probs := List.mem_of_getLast?_eq_some hj
  have hjmax : ∀ i, i ∈ argsort probs → probs.getD i 0 ≤ probs.getD j 0 :=
    @sorted_getLast?_greatest (fun i j => probs.getD i 0 ≤ probs.getD j 0)
      (fun a => le_refl _) (argsort probs) (argsort_sorted probs) j hj
  have hmem_iff : ∀ i, i ∈ argsort probs ↔ i < probs.length := by
    intro i
    rw [(argsort_perm probs).mem_iff, List.mem_range]
  have hjlt : j < probs.length := (hmem_iff j).mp hjmem
  have hgetD : ∀ i (hi : i < probs.length), probs.getD i 0 = probs.get ⟨i, hi⟩ := by
    intro i hi
    rw [List.getD_eq_getElem?_getD, List.getElem?_eq_getElem hi]
    rfl
  constructor
  · rw [hbuild]
    show probs.getD j 0 ∈ probs
    rw [hgetD j hjlt]
    exact probs.get_mem j hjlt
  · intro x hx
    obtain ⟨i, hi, hix⟩ := List.mem_iff_getElem.mp hx
    have : probs.getD i 0 ≤ probs.getD j 0 := hjmax i ((hmem_iff i).mpr hi)
    rw [hgetD i hi, hgetD j hjlt] at this
    rw [hbuild]
    show x ≤ probs.getD j 0
    rw [hgetD j hjlt]
    calc x = probs.get ⟨i, hi⟩ := by rw [← hix]; rfl
    _ ≤ _ := this

/-! ### Claim theorems -/

/-- C5: the severity tier is a pure total function of the primary
confidence over half-open intervals: below 0.5 uncertain, in
[0.5, 0.7) mild, in [0.7, 0.85) moderate, at or above 0.85 severe. -/
theorem severity_tiers (c : ℚ) :
    (c < mkRat 1 2 → assess_severity c = "uncertain") ∧
    (mkRat 1 2 ≤ c → c < mkRat 7 10 → assess_severity c = "mild") ∧
    (mkRat 7 10 ≤ c → c < mkRat 17 20 → assess_severity c = "moderate") ∧
    (mkRat 17 20 ≤ c → assess_severity c = "severe") := by
  have h12 : mkRat 1 2 ≤ mkRat 7 10 := by decide
  have h710 : mkRat 7 10 ≤ mkRat 17 20 := by decide
  unfold assess_severity
  refine ⟨fun h => ?_, fun h1 h2 => ?_, fun h1 h2 => ?_, fun h1 => ?_⟩
  · rw [if_pos h]
  · rw [if_neg (not_lt.mpr h1), if_pos h2]
  · rw [if_neg (not_lt.mpr (le_trans h12 h1)), if_neg (not_lt.mpr h1), if_pos h2]
  · rw [if_neg (not_lt.mpr (le_trans (le_trans h12 h710) h1)),
      if_neg (not_lt.mpr (le_trans h710 h1)), if_neg (not_lt.mpr h1)]

/-- Witness for C5 at the six boundary values named in the claim
(0.49999, 0.5, 0.69999, 0.7, 0.84999, 0.85). -/
theorem severity_tiers_witness :
    assess_severity (mkRat 49999 100000) = "uncertain" ∧
    assess_severity (mkRat 1 2) = "mild" ∧
    assess_severity (mkRat 69999 100000) = "mild" ∧
    assess_severity (mkRat 7 10) = "moderate" ∧
    assess_severity (mkRat 84999 100000) = "moderate" ∧
    assess_severity (mkRat 17 20) = "severe" :=
  ⟨(severity_tiers _).1 (by decide),
   (severity_tiers _).2.1 (by decide) (by decide),
   (severity_tiers _).2.1 (by decide) (by decide),
   (severity_tiers _).2.2.1 (by decide) (by decide),
   (severity_tiers _).2.2.1 (by decide) (by decide),
   (severity_tiers _).2.2.2 (by decide)⟩

/-- C8: readiness is false when both variants failed to load, false when
the label table is empty even with a loaded variant, and true exactly
when at least one variant is loaded and the label table is non-empty. -/
theorem readiness_characterization (mm : ModelManager Img) :
    (mm.kerasModel = none → mm.tfliteInterpreter = none → is_ready mm = false) ∧
    (mm.classLabels = [] → is_ready mm = false) ∧
    (is_ready mm = true ↔
      ((mm.kerasModel.isSome = true ∨ mm.tfliteInterpreter.isSome = true) ∧
        mm.classLabels ≠ [])) := by
  refine ⟨fun h1 h2 => ?_, fun h => ?_, ?_⟩
  · simp [is_ready, h1, h2]
  · simp [is_ready, h]
  · simp [is_ready, Bool.and_eq_true, Bool.or_eq_true, decide_eq_true_eq,
      List.length_pos]

/-- Witness for C8: a manager with no loaded variant is not ready, and a
manager with a loaded variant but an empty label table is not ready. -/
theorem readiness_characterization_witness :
    is_ready mmNoModels = false ∧ is_ready mmNoLabels = false :=
  ⟨(readiness_characterization mmNoModels).1 rfl rfl,
   (readiness_characterization mmNoLabels).2.1 rfl⟩

/-- C10: image validation is total: any exception escaping the body
(decode failure, unreadable image) is converted to `false`, and the
operation always returns a boolean. -/
theorem validate_never_raises (env : ImageEnv) (proc : ImageProcessor)
    (d : ImageData) :
    (∀ e, validateBody env proc d = .error e → validate_image env proc d = false) ∧
    (validate_image env proc d = false ∨ validate_image env proc d = true) := by
  constructor
  · intro e h
    unfold validate_image
    rw [h]
  · cases h : validate_image env proc d
    · exact Or.inl rfl
    · exact Or.inr rfl

/-- Witness for C10: a data-URI string whose base64 payload the decoder
rejects makes the body raise, and validation returns `false` on it. -/
theorem validate_never_raises_witness :
    validateBody envRejecting procDemo (.str ("data:image/png;base64,xyz")) =
      .error ("Invalid base64-encoded string") ∧
    validate_image envRejecting procDemo (.str ("data:image/png;base64,xyz")) = false :=
  ⟨by decide, (validate_never_raises envRejecting procDemo _).1
    ("Invalid base64-encoded string") (by decide)⟩

/-- C2 (bug evidence): running the exposed batch route on
`[valid, corrupt, valid]` (inputs 10, 11, 12, where preprocessing fails
on 11) yields only TWO entries, both successful, tagged with indices 0
and 1: the corrupt item produces no failure record and the index of the
final valid item shifts from 2 to 1. -/
theorem batch_route_drops_corrupt_item :
    ((route_predict_batch predBatchDemo preBatchDemo [10, 11, 12] false).map
      (fun rs => rs.map (fun e => (batchEntryIndex e, batchEntrySuccess e)))) =
      .ok [(0, true), (1, true)] := by decide

/-- C3 (counterexample): with `k = 0 < 1` the ranking does not fail with
any error; it returns an ordinary successful result listing all three
classes (the slice `[-0:]` selects the whole argsort). -/
theorem rank_k_zero_counterexample :
    get_top_predictions mmRank [mkRat 1 2, mkRat 3 10, mkRat 1 5] 0 =
      [{ className := "a", classIndex := 0, confidence := mkRat 1 2 },
       { className := "b", classIndex := 1, confidence := mkRat 3 10 },
       { className := "c", classIndex := 2, confidence := mkRat 1 5 }] := by decide

/-- C3 (amended): ranking never fails: when `k` is at least the class
count the result is clamped to exactly `class_count` entries, and when
`k = 0` (below 1) no error is raised — all `class_count` entries are
returned. -/
theorem rank_clamp_and_k_zero (mm : ModelManager Img) (probs : List ℚ) (k : ℤ) :
    ((probs.length : ℤ) ≤ k →
      (get_top_predictions mm probs k).length = probs.length) ∧
    (get_top_predictions mm probs 0).length = probs.length := by
  constructor
  · intro h
    rw [get_top_predictions_length_core, pySliceFrom_length, argsort_length]
    split <;> omega
  · rw [get_top_predictions_length_core, pySliceFrom_length, argsort_length]
    split <;> omega

/-- Witness for C3: requesting 5 of 3 classes returns exactly 3 entries. -/
theorem rank_clamp_and_k_zero_witness :
    (get_top_predictions mmRank [mkRat 1 2, mkRat 3 10, mkRat 1 5] 5).length =
      ([mkRat 1 2, mkRat 3 10, mkRat 1 5] : List ℚ).length :=
  (rank_clamp_and_k_zero mmRank [mkRat 1 2, mkRat 3 10, mkRat 1 5] 5).1 (by decide)

/-- C9 (counterexample): with the TFLite variant not loaded and a request
for it, the produced result's backend field still says "tflite" although
the probability vector (top confidence 9/10) was produced by the Keras
model — the only loaded variant. -/
theorem model_used_misreports_fallback :
    predFallback.modelManager.tfliteInterpreter = none ∧
    (predict predFallback 0 true 1).map (fun r => r.model_used) = .ok ("tflite") ∧
    (predict predFallback 0 true 1).map (fun r => r.primary_prediction.confidence) =
      .ok (mkRat 9 10) :=
  ⟨rfl, by decide, by decide⟩

/-- C9 (amended): the backend field of every successful result equals the
REQUESTED variant — "tflite" exactly when the caller set `use_tflite` —
rather than the variant that actually produced the probability vector. -/
theorem model_used_reflects_request_flag (p : DiseasePredictor Img Rec)
    (img : Img) (use_tflite : Bool) (k : ℤ) (r : PredictionResult Rec)
    (h : predict p img use_tflite k = .ok r) :
    r.model_used = if use_tflite then "tflite" else "keras" := by
  unfold predict at h
  repeat' split at h
  all_goals
    first
      | exact Except.noConfusion h
      | (simp_all; rw [← h])

/-- Witness for C9 at the fallback scenario: the recorded backend is the
requested one. -/
theorem model_used_reflects_request_flag_witness :
    resultFallbackDemo.model_used = if true then "tflite" else "keras" :=
  model_used_reflects_request_flag predFallback 0 true 1 resultFallbackDemo
    (by decide)

/-- C1 (counterexample): compact variant requested while not loaded, yet
the single-item predict succeeds (served silently by the Keras variant)
instead of failing. -/
theorem compact_request_fallback_counterexample :
    predFallback.modelManager.tfliteInterpreter = none ∧
    (predict predFallback 0 true 3).isOk = true :=
  ⟨rfl, by decide⟩

/-- C1 (amended): when the compact (TFLite) variant is requested but not
loaded, predict raises the no-model error only if the primary (Keras)
variant is also unavailable; if the primary variant is loaded it serves
the request silently (succeeding whenever it yields a non-empty
probability vector and `k ≥ 1`). -/
theorem predict_compact_unavailable (p : DiseasePredictor Img Rec) (img : Img)
    (k : ℤ) (htf : p.modelManager.tfliteInterpreter = none) :
    (p.modelManager.kerasModel = none →
      predict p img true k = .error ("No model available for prediction")) ∧
    (∀ f, p.modelManager.kerasModel = some f → f img ≠ [] → 1 ≤ k →
      (predict p img true k).isOk = true) := by
  constructor
  · intro hk
    unfold predict
    rw [htf, hk]
    rfl
  · intro f hf hne hk1
    have hpos : 0 < (get_top_predictions p.modelManager (f img) k).length := by
      rw [get_top_predictions_length p.modelManager (f img) k hk1]
      have h0 : 0 < (f img).length := List.length_pos.mpr hne
      omega
    obtain ⟨p₀, rest, htops⟩ :=
      List.exists_cons_of_ne_nil (List.ne_nil_of_length_pos hpos)
    unfold predict predict_keras
    rw [htf, hf]
    simp [htops, Except.isOk, Except.toBool]

/-- Witness for C1: with no variant loaded the request fails with the
no-model error; with only Keras loaded, a compact-variant request
succeeds. -/
theorem predict_compact_unavailable_witness :
    predict predNoModels 0 true 3 = .error ("No model available for prediction") ∧
    (predict predFallback 0 true 3).isOk = true :=
  ⟨(predict_compact_unavailable predNoModels 0 3 rfl).1 rfl,
   (predict_compact_unavailable predFallback 0 3 rfl).2 kerasDemoFn rfl
     (by decide) (by decide)⟩

/-- C4: for `k ≥ 1` the ranking returns exactly `min(k, class_count)`
entries, their confidences are in non-increasing order, and the first
(primary) entry's confidence is a maximum of the input vector. -/
theorem rank_length_order_max (mm : ModelManager Img) (probs : List ℚ) (k : ℤ)
    (hk : 1 ≤ k) :
    (get_top_predictions mm probs k).length = (min k (probs.length : ℤ)).toNat ∧
    List.Sorted (· ≥ ·)
      ((get_top_predictions mm probs k).map TopPrediction.confidence) ∧
    (∀ p₀, (get_top_predictions mm probs k).head? = some p₀ →
      p₀.confidence ∈ probs ∧ ∀ x ∈ probs, x ≤ p₀.confidence) :=
  ⟨get_top_predictions_length mm probs k hk,
   get_top_predictions_sorted mm probs k,
   fun p₀ h => get_top_predictions_head mm probs k p₀ h⟩

/-- Witness for C4 on a concrete three-class vector with `k = 2`. -/
theorem rank_length_order_max_witness :
    (get_top_predictions mmRank [mkRat 1 2, mkRat 3 10, mkRat 1 5] 2).length =
      (min 2 (([mkRat 1 2, mkRat 3 10, mkRat 1 5] : List ℚ).length : ℤ)).toNat ∧
    List.Sorted (· ≥ ·)
      ((get_top_predictions mmRank [mkRat 1 2, mkRat 3 10, mkRat 1 5] 2).map
        TopPrediction.confidence) ∧
    (mkRat 1 2 ∈ ([mkRat 1 2, mkRat 3 10, mkRat 1 5] : List ℚ) ∧
      ∀ x ∈ ([mkRat 1 2, mkRat 3 10, mkRat 1 5] : List ℚ), x ≤ mkRat 1 2) :=
  ⟨(rank_length_order_max mmRank [mkRat 1 2, mkRat 3 10, mkRat 1 5] 2 (by decide)).1,
   (rank_length_order_max mmRank [mkRat 1 2, mkRat 3 10, mkRat 1 5] 2 (by decide)).2.1,
   (rank_length_order_max mmRank [mkRat 1 2, mkRat 3 10, mkRat 1 5] 2 (by decide)).2.2
     { className := "a", classIndex := 0, confidence := mkRat 1 2 } (by decide)⟩

/-! ### Helper lemmas about key normalization (C6) -/

theorem replaceDD_length_le : ∀ l : List Char, (replaceDD l).length ≤ l.length := by
  intro l
  induction l using replaceDD.induct with
  | case1 => simp [replaceDD]
  | case2 c => simp [replaceDD]
  | case3 a b rest h ih =>
    simp only [replaceDD, if_pos h, List.length_cons]
    omega
  | case4 a b rest h ih =>
    simp only [replaceDD, if_neg h, List.length_cons] at ih ⊢
    omega

theorem replaceDD_length_lt :
    ∀ l : List Char, containsDD l = true → (replaceDD l).length < l.length := by
  intro l
  induction l using replaceDD.induct with
  | case1 => intro h; simp [containsDD] at h
  | case2 c => intro h; simp [containsDD] at h
  | case3 a b rest h ih =>
    intro _
    simp only [replaceDD, if_pos h, List.length_cons]
    have := replaceDD_length_le rest
    omega
  | case4 a b rest h ih =>
    intro hc
    have hc2 : containsDD (b :: rest) = true := by
      rw [containsDD] at hc
      rcases Bool.or_eq_true_iff.mp hc with h1 | h2
      · exact absurd ⟨of_decide_eq_true (Bool.and_eq_true_iff.mp h1).1,
          of_decide_eq_true (Bool.and_eq_true_iff.mp h1).2⟩ h
      · exact h2
    simp only [replaceDD, if_neg h, List.length_cons] at ih ⊢
    have := ih hc2
    omega

theorem collapseLoop_no_DD :
    ∀ (fuel : ℕ) (l : List Char), l.length ≤ fuel →
      containsDD (collapseLoop fuel l) = false := by
  intro fuel
  induction fuel with
  | zero =>
    intro l hl
    have : l = [] := List.length_eq_zero.mp (Nat.le_zero.mp hl)
    rw [this]
    rfl
  | succ fuel ih =>
    intro l hl
    rw [collapseLoop]
    cases h : containsDD l with
    | false => simpa using h
    | true =>
      simp only [if_pos rfl, if_true]
      exact ih (replaceDD l) (by have := replaceDD_length_lt l h; omega)

theorem collapseLoop_of_no_DD (l : List Char) (h : containsDD l = false) :
    ∀ fuel, collapseLoop fuel l = l := by
  intro fuel
  cases fuel with
  | zero => rfl
  | succ fuel => simp [collapseLoop, h]

theorem mem_replaceDD {c : Char} :
    ∀ l : List Char, c ∈ replaceDD l → c ∈ l := by
  intro l
  induction l using replaceDD.induct with
  | case1 => intro h; exact h
  | case2 d => intro h; exact h
  | case3 a b rest h ih =>
    intro hc
    simp only [replaceDD, if_pos h] at hc
    rcases List.mem_cons.mp hc with h1 | h2
    · rw [h1, h.1]
      exact List.mem_cons_self _ _
    · exact List.mem_cons_of_mem _ (List.mem_cons_of_mem _ (ih h2))
  | case4 a b rest h ih =>
    intro hc
    simp only [replaceDD, if_neg h] at hc
    rcases List.mem_cons.mp hc with h1 | h2
    · rw [h1]
      exact List.mem_cons_self _ _
    · exact List.mem_cons_of_mem _ (ih h2)

theorem mem_collapseLoop {c : Char} :
    ∀ (fuel : ℕ) (l : List Char), c ∈ collapseLoop fuel l → c ∈ l := by
  intro fuel
  induction fuel with
  | zero => intro l h; exact h
  | succ fuel ih =>
    intro l h
    rw [collapseLoop] at h
    by_cases hdd : containsDD l = true
    · rw [if_pos hdd] at h
      exact mem_replaceDD l (ih (replaceDD l) h)
    · rwa [if_neg hdd] at h

theorem pyStrip_infix_self (l : List Char) : pyStrip l <:+: l := by
  have h1 : pyStrip l <+: List.dropWhile (fun c => c = '_') l :=
    List.rdropWhile_prefix (fun c => c = '_')
      (List.dropWhile (fun c => c = '_') l)
  have h2 : List.dropWhile (fun c => c = '_') l <:+ l :=
    List.dropWhile_suffix (fun c => c = '_')
  exact h1.isInfix.trans h2.isInfix

theorem mem_pyStrip {c : Char} {l : List Char} (h : c ∈ pyStrip l) : c ∈ l :=
  (pyStrip_infix_self l).sublist.mem h

theorem containsDD_characterization :
    ∀ l : List Char, containsDD l = true ↔ ['_', '_'] <:+: l := by
  intro l
  induction l using containsDD.induct with
  | case1 =>
    simp [containsDD]
  | case2 c =>
    constructor
    · intro h; simp [containsDD] at h
    · intro h
      have := h.sublist.length_le
      simp at this
  | case3 a b rest ih =>
    rw [containsDD, List.infix_cons_iff]
    constructor
    · intro h
      rcases Bool.or_eq_true_iff.mp h with h1 | h2
      · obtain ⟨ha, hb⟩ := Bool.and_eq_true_iff.mp h1
        left
        rw [List.cons_prefix_cons]
        refine ⟨(of_decide_eq_true ha).symm, ?_⟩
        rw [List.cons_prefix_cons]
        exact ⟨(of_decide_eq_true hb).symm, List.nil_prefix⟩
      · right
        exact (ih.mp h2)
    · intro h
      rcases h with h1 | h2
      · rw [List.cons_prefix_cons] at h1
        obtain ⟨ha, h1⟩ := h1
        rw [List.cons_prefix_cons] at h1
        obtain ⟨hb, _⟩ := h1
        apply Bool.or_eq_true_iff.mpr
        left
        exact Bool.and_eq_true_iff.mpr ⟨decide_eq_true ha.symm, decide_eq_true hb.symm⟩
      · exact Bool.or_eq_true_iff.mpr (Or.inr (ih.mpr h2))

theorem containsDD_false_of_infix {l₁ l₂ : List Char} (h : l₁ <:+: l₂)
    (h2 : containsDD l₂ = false) : containsDD l₁ = false := by
  by_contra hc
  have h1 : containsDD l₁ = true := by
    cases hcc : containsDD l₁
    · exact absurd hcc hc
    · rfl
  have := (containsDD_characterization l₂).mpr (((containsDD_characterization l₁).mp h1).trans h)
  rw [this] at h2
  exact Bool.true_eq_false.mp h2

theorem pyLower_toNat (c : Char) :
    (pyLower c).toNat =
      if 65 ≤ c.toNat ∧ c.toNat ≤ 90 then c.toNat + 32 else c.toNat := by
  by_cases h : 65 ≤ c.toNat ∧ c.toNat ≤ 90
  · rw [if_pos h]
    unfold pyLower
    rw [if_pos h]
    generalize c.toNat = n at h ⊢
    have hv : (n + 32).isValidChar := Or.inl (by omega)
    simp [Char.ofNat, hv, Char.ofNatAux, Char.toNat, UInt32.toNat, BitVec.toNat_ofNatLt]
  · rw [if_neg h]
    unfold pyLower
    rw [if_neg h]

theorem pyLower_idem (c : Char) : pyLower (pyLower c) = pyLower c := by
  have h1 : ¬(65 ≤ (pyLower c).toNat ∧ (pyLower c).toNat ≤ 90) := by
    rw [pyLower_toNat]
    split <;> omega
  show (if 65 ≤ (pyLower c).toNat ∧ (pyLower c).toNat ≤ 90 then
    Char.ofNat ((pyLower c).toNat + 32) else pyLower c) = pyLower c
  rw [if_neg h1]

theorem map_eq_self_of_fix {α : Type} {f : α → α} :
    ∀ (l : List α), (∀ x ∈ l, f x = x) → l.map f = l := by
  intro l h
  induction l with
  | nil => rfl
  | cons a t ih =>
    rw [List.map_cons, h a (List.mem_cons_self _ _),
      ih (fun x hx => h x (List.mem_cons_of_mem _ hx))]

theorem dropWhile_eq_self_of_IsPrefix {α : Type} {p : α → Bool} {t y : List α}
    (hpre : t <+: y) (hy : List.dropWhile p y = y) :
    List.dropWhile p t = t := by
  cases t with
  | nil => rfl
  | cons a t2 =>
    obtain ⟨rest, hrest⟩ := hpre
    have ha : p a = false := by
      cases hpa : p a with
      | false => rfl
      | true =>
        rw [← hrest, List.cons_append, List.dropWhile_cons, hpa, if_pos rfl] at hy
        have hle := (@List.dropWhile_sublist α (t2 ++ rest) p).length_le
        rw [hy] at hle
        simp at hle
    rw [List.dropWhile_cons, ha]
    simp

theorem pyStrip_idem (l : List Char) : pyStrip (pyStrip l) = pyStrip l := by
  have heq : ∀ x : List Char, pyStrip x =
      List.rdropWhile (fun c => c = '_') (List.dropWhile (fun c => c = '_') x) :=
    fun x => rfl
  rw [heq, heq]
  have h1 : List.dropWhile (fun c => c = '_')
      (List.rdropWhile (fun c => c = '_') (List.dropWhile (fun c => c = '_') l)) =
      List.rdropWhile (fun c => c = '_') (List.dropWhile (fun c => c = '_') l) := by
    apply dropWhile_eq_self_of_IsPrefix
      ( List.rdropWhile_prefix (fun c => c = '_') (List.dropWhile (fun c => c = '_') l))
    exact List.dropWhile_idempotent (fun c => c = '_') l
  rw [h1, List.rdropWhile_idempotent]

/-- C6: disease-key normalization (lowercase, collapse repeated
underscores until none remain, trim edge underscores) is idempotent, and
behaves as specified on the concrete examples. -/
theorem normalize_disease_key_idempotent :
    (∀ s : String,
      normalize_disease_key (normalize_disease_key s) = normalize_disease_key s) ∧
    normalize_disease_key ("Pepper__bell___healthy") = "pepper_bell_healthy" ∧
    normalize_disease_key ("pepper_bell_healthy") = "pepper_bell_healthy" := by
  refine ⟨fun s => ?_, by decide, by decide⟩
  have hdata : ∀ l : List Char, (String.mk l).data = l := fun l => rfl
  unfold normalize_disease_key
  rw [hdata]
  set L := s.data.map pyLower with hL
  set C := collapseLoop L.length L with hC
  set t := pyStrip C with ht
  have hmemL : ∀ c ∈ L, pyLower c = c := by
    intro c hc
    rw [hL] at hc
    obtain ⟨c₀, _, hc₀⟩ := List.mem_map.mp hc
    rw [← hc₀]
    exact pyLower_idem c₀
  have hmemt : ∀ c ∈ t, pyLower c = c := by
    intro c hc
    exact hmemL c (mem_collapseLoop L.length L (mem_pyStrip (ht ▸ hc)))
  have hmap : t.map pyLower = t := map_eq_self_of_fix t hmemt
  have hnoDDC : containsDD C = false := collapseLoop_no_DD L.length L (le_refl _)
  have hnoDDt : containsDD t = false :=
    containsDD_false_of_infix (ht ▸ pyStrip_infix_self C) hnoDDC
  rw [hmap, collapseLoop_of_no_DD t hnoDDt, ht, pyStrip_idem]

/-! ### C7: crop-name extraction -/

theorem splitOnUnderscore_no_underscore :
    ∀ (l : List Char), ¬('_' ∈ l) → splitOnUnderscore l = [l] := by
  intro l h
  induction l with
  | nil => rfl
  | cons c rest ih =>
    have hc : ¬(c = '_') :=
      fun hcc => h (List.mem_cons.mpr (Or.inl hcc.symm))
    have hrest : splitOnUnderscore rest = [rest] :=
      ih (fun hm => h (List.mem_cons_of_mem c hm))
    rw [splitOnUnderscore, if_neg hc, hrest]

/-- C7: crop-name extraction splits the raw label on underscores and
capitalizes the first segment ("Tomato_Early_blight" gives "Tomato"; a
label without underscores yields itself capitalized), and the
no-segments fallback of the extraction body is the string "Unknown". -/
theorem crop_name_extraction :
    extract_crop_name ("Tomato_Early_blight") = "Tomato" ∧
    (∀ s : String, ¬('_' ∈ s.data) → extract_crop_name s = pyCapitalize s) ∧
    extractFromParts [] = "Unknown" := by
  refine ⟨by decide, fun s h => ?_, rfl⟩
  unfold extract_crop_name
  rw [splitOnUnderscore_no_underscore s.data h]
  rfl

/-- Witness for C7 on an underscore-free label. -/
theorem crop_name_extraction_witness :
    ¬('_' ∈ ("tomato" : String).data) ∧
    extract_crop_name ("tomato") = pyCapitalize ("tomato") :=
  ⟨by decide, crop_name_extraction.2.1 ("tomato") (by decide)⟩

end CropDisease
